import Mathlib

/-!
Verification of the `nifgen` schema-interpretation pipeline
(`src/buddle-nif/nifgen/`): the version-predicate engine
(`predicates.py`), the type/schema model builder (`types.py`) and the
embedded-expression parser (`expr.py`).

The Python sources are shallowly embedded: the XML attribute dictionary
becomes a structure of `Option String` fields (one per key the code
reads), Python exceptions (`KeyError`, `ValueError`, `IndexError`,
`AttributeError`) become `Option`-valued results (`none` = the run
aborts), and the string primitives the code relies on (`split`,
`replace`, `lstrip`, `int(...)`, substring tests, `str.lower`) are
re-implemented on `List Char` with Python's semantics so that every
definition evaluates by kernel reduction.

Modelling notes on divergences that are out of reach of every claim:
Python's `int` additionally accepts signs, surrounding whitespace and
underscore digit separators; the version components and bit indices in
the specification are plain digit strings, which the digit-only parser
below models exactly.  Python's `str.lower`/`str.upper` and the regex
classes `\w`/`\W` are Unicode-aware; the specification's names and
expressions are ASCII, on which `Char.toLower`/`Char.toUpper` and
`[A-Za-z0-9_]` coincide with Python.
-/

/-! ## Python string primitives -/

/-- Python `int(s)` for a plain digit string: `some n` when `s` is nonempty
and all digits, otherwise `none` (a `ValueError` aborts the run). -/
def pyToNat (s : String) : Option Nat :=
  if s.data ≠ [] ∧ s.data.all Char.isDigit then
    some (s.data.foldl (fun n c => n * 10 + (c.toNat - '0'.toNat)) 0)
  else none

/-- Python `int(s)` with an optional leading minus sign. -/
def pyToInt (s : String) : Option Int :=
  match s.data with
  | '-' :: rest => (pyToNat (String.mk rest)).map (fun n => -(n : Int))
  | _ => (pyToNat s).map (fun n => (n : Int))

/-- Core of Python `str.split`: scan left to right; `skip > 0` means the
current character still belongs to an already-matched separator occurrence;
`acc` is the current segment, reversed. -/
def listSplitOnAux (sep : List Char) : List Char → Nat → List Char → List (List Char)
  | [], _, acc => [acc.reverse]
  | _c :: rest, skip + 1, acc => listSplitOnAux sep rest skip acc
  | c :: rest, 0, acc =>
    if sep.isPrefixOf (c :: rest) then
      acc.reverse :: listSplitOnAux sep rest (sep.length - 1) []
    else
      listSplitOnAux sep rest 0 (c :: acc)

/-- Split on every non-overlapping occurrence of the separator, keeping empty
segments, exactly like Python `str.split(sep)`. -/
def listSplitOn (sep : List Char) (l : List Char) : List (List Char) :=
  listSplitOnAux sep l 0 []

/-- Python `s.split(sep)`.  The separator is never empty in this code base
(Python raises `ValueError` there). -/
def pySplit (s : String) (sep : String) : List String :=
  match sep.data with
  | [] => [s]
  | c :: cs => (listSplitOn (c :: cs) s.data).map String.mk

/-- Core of Python `str.replace`: scan left to right, `skip` as above. -/
def listReplaceAux (pat sub : List Char) : List Char → Nat → List Char
  | [], _ => []
  | _c :: rest, skip + 1 => listReplaceAux pat sub rest skip
  | c :: rest, 0 =>
    if pat.isPrefixOf (c :: rest) then
      sub ++ listReplaceAux pat sub rest (pat.length - 1)
    else
      c :: listReplaceAux pat sub rest 0

/-- Python `s.replace(pat, sub)`; the pattern is never empty in this code base. -/
def pyReplace (s pat sub : String) : String :=
  match pat.data with
  | [] => s
  | c :: cs => String.mk (listReplaceAux (c :: cs) sub.data s.data 0)

/-- Is `needle` a contiguous substring of `hay`?  Python `needle in hay`. -/
def listIsInfix (needle : List Char) : List Char → Bool
  | [] => needle.isEmpty
  | c :: rest => needle.isPrefixOf (c :: rest) || listIsInfix needle rest

/-- Python `needle in hay` on strings. -/
def pyIn (needle hay : String) : Bool := listIsInfix needle.data hay.data

/-- Python `s.startswith(pre)`. -/
def pyStartsWith (s pre : String) : Bool := pre.data.isPrefixOf s.data

/-- Python `c in s` for one character. -/
def strHasChar (s : String) (c : Char) : Bool := s.data.contains c

/-- Python `s.lower()` (ASCII). -/
def pyLower (s : String) : String := String.mk (s.data.map Char.toLower)

/-- Python whitespace as recognised by `str.strip`. -/
def isPySpace (c : Char) : Bool :=
  c == ' ' || c == '\t' || c == '\n' || c == '\r' || c == '\x0b' || c == '\x0c'

/-- Python `s.strip()` (also `s.lstrip().rstrip()`). -/
def pyStrip (s : String) : String :=
  String.mk (((s.data.dropWhile isPySpace).reverse.dropWhile isPySpace).reverse)

/-- Python `s.isnumeric()` for ASCII digit strings. -/
def pyIsNumeric (s : String) : Bool := !s.data.isEmpty && s.data.all Char.isDigit

/-- Python truthiness of an optional string attribute: `None` and `""` are
falsy, everything else truthy. -/
def truthy : Option String → Bool
  | none => false
  | some s => s != ""

/-- Rendering of an optional string inside a Python f-string: `None` prints
as `"None"`. -/
def strOfOpt : Option String → String
  | none => "None"
  | some s => s

/-! ## `nifgen/__init__.py` : target deployment versions -/

/-- The `VersionInfo` named tuple from `nifgen/__init__.py`. -/
structure VersionInfo where
  major : Nat
  minor : Nat
  micro : Nat
  patch : Nat
deriving DecidableEq

/-- The `TARGET_VERSIONS` constant from `nifgen/__init__.py`. -/
def TARGET_VERSIONS : List VersionInfo :=
  [⟨20, 1, 0, 3⟩, ⟨20, 2, 0, 7⟩, ⟨20, 2, 0, 8⟩, ⟨20, 3, 0, 9⟩, ⟨20, 6, 0, 0⟩]

/-! ## `nifgen/predicates.py` : version predicate engine -/

/-- The `BETHESDA_MODULES` denylist from `predicates.py`. -/
def BETHESDA_MODULES : List String :=
  ["BSMain", "BSAnimation", "BSParticle", "BSHavok", "BSLegacy"]

/-- The `EXCLUDED_NAMES` denylist from `predicates.py`. -/
def EXCLUDED_NAMES : List String := ["RendererID", "BoneTransform"]

/-- The `VersionRelation` enum from `predicates.py`. -/
inductive VersionRelation where
  | LOWER
  | EXACT
  | HIGHER
deriving DecidableEq

/-- The attribute dictionary of one XML element, projected onto the keys the
generator reads.  A `none` field models an absent key. -/
structure Attrib where
  name : Option String := none
  type : Option String := none
  template : Option String := none
  arr1 : Option String := none
  arr2 : Option String := none
  arg : Option String := none
  cond : Option String := none
  ver1 : Option String := none
  ver2 : Option String := none
  vercond : Option String := none
  since : Option String := none
  /-- the `until` key (`until` is unusable as a Lean field name) -/
  vuntil : Option String := none
  versions : Option String := none
  module : Option String := none
  storage : Option String := none
  generic : Option String := none
  inherit : Option String := none
  /-- the `prefix` key (renamed, reserved word) -/
  pfix : Option String := none
  bit : Option String := none
deriving DecidableEq

/-- The helper `split_version_string` (nested in `check_version`): split on `.` when one
is present, else on `_`, and strip every leading `V` from the first
component (`parts[0].lstrip("V")`). -/
def split_version_string (s : String) : List String :=
  let parts := if strHasChar s '.' then pySplit s "." else pySplit s "_"
  match parts with
  | [] => []
  | p :: rest => String.mk (p.data.dropWhile (fun c => c == 'V')) :: rest

/-- Function `check_version` from `predicates.py`: parse the version string and
compare it component-wise against the target tuple `version`, short-circuiting
at the first unequal component; missing trailing components default to 0.
`none` models the `ValueError` raised when a component is not an integer. -/
def check_version (version : VersionInfo) (string : String) : Option VersionRelation := do
  let parts ← (split_version_string string).mapM pyToNat
  let major := parts.getD 0 0
  let minor := parts.getD 1 0
  let micro := parts.getD 2 0
  let patch := parts.getD 3 0
  if major < version.major then pure VersionRelation.LOWER
  else if major > version.major then pure VersionRelation.HIGHER
  else if minor < version.minor then pure VersionRelation.LOWER
  else if minor > version.minor then pure VersionRelation.HIGHER
  else if micro < version.micro then pure VersionRelation.LOWER
  else if micro > version.micro then pure VersionRelation.HIGHER
  else if patch < version.patch then pure VersionRelation.LOWER
  else if patch > version.patch then pure VersionRelation.HIGHER
  else pure VersionRelation.EXACT

/-- Python `any(f(x) for x in l)`: lazy, short-circuiting at the first `True`,
propagating the first exception of an evaluated element. -/
def anyM {α : Type} (f : α → Option Bool) : List α → Option Bool
  | [] => some false
  | x :: xs => (f x).bind (fun b => if b then some true else anyM f xs)

/-- The inner `check_target_version` of `should_emit_struct`.  The first
branch is the `"since" in attrib and not "versions" in attrib` case (with
Python's short-circuiting `x and check_version(...)`), the second the
`"versions" in attrib and not ...startswith("#")` case, the last the final
`return True`. -/
def check_target_version_struct (a : Attrib) (version : VersionInfo) : Option Bool :=
  match a.since, a.versions with
  | some since, none =>
    (check_version version since).bind (fun r =>
      let x := (r != VersionRelation.HIGHER)
      match a.vuntil with
      | some u =>
        if x then
          (check_version version u).map (fun r2 => x && (r2 != VersionRelation.HIGHER))
        else some x
      | none => some x)
  | _, some vs =>
    if !pyStartsWith vs "#" then
      anyM (fun ver => (check_version version ver).map (fun r => r == VersionRelation.EXACT))
        (pySplit vs " ")
    else some true
  | none, none => some true

/-- Function `should_emit_struct` from `predicates.py`. -/
def should_emit_struct (a : Attrib) : Option Bool :=
  if a.versions.isSome then some false
  else if a.module.any (fun m => BETHESDA_MODULES.contains m) then some false
  else if a.name.any (fun n => EXCLUDED_NAMES.contains n) then some false
  else if a.name.any (fun n => pyIn "physx" (pyLower n)) then some false
  else if a.name.any (fun n => pyStartsWith n "bhk") then some false
  else anyM (check_target_version_struct a) TARGET_VERSIONS

/-- The `ver1` test of `should_emit_member`'s `check_target_version`:
`some false` is the early `return False`, `none` a `ValueError`. -/
def ver1_ok (a : Attrib) (version : VersionInfo) : Option Bool :=
  match a.ver1 with
  | some v1 => (check_version version v1).map (fun r => !(r == VersionRelation.HIGHER))
  | none => some true

/-- The `ver2` test of `should_emit_member`'s `check_target_version`. -/
def ver2_ok (a : Attrib) (version : VersionInfo) : Option Bool :=
  match a.ver2 with
  | some v2 => (check_version version v2).map (fun r => !(r == VersionRelation.LOWER))
  | none => some true

/-- The inner `check_target_version` of `should_emit_member`: the `ver1`
test may `return False` before the `ver2` test runs. -/
def check_target_version_member (a : Attrib) (version : VersionInfo) : Option Bool :=
  (ver1_ok a version).bind (fun b1 => if b1 then ver2_ok a version else some false)

/-- The final `cond == "#BSSTREAMHEADER#"` test of `should_emit_member`. -/
def member_cond_check (a : Attrib) : Option Bool :=
  match a.cond with
  | some c => if c == "#BSSTREAMHEADER#" then some false else some true
  | none => some true

/-- The `vercond` allowlist test of `should_emit_member`, falling through to
the `cond` test. -/
def member_vercond_check (a : Attrib) : Option Bool :=
  match a.vercond with
  | some vercond =>
    if vercond != "#NISTREAM#" && !pyStartsWith vercond "!" &&
        !pyStartsWith vercond "#NI" && !pyStartsWith vercond "#BSVER# #LT" then
      some false
    else member_cond_check a
  | none => member_cond_check a

/-- Function `should_emit_member` from `predicates.py`. -/
def should_emit_member (a : Attrib) : Option Bool :=
  (anyM (check_target_version_member a) TARGET_VERSIONS).bind (fun b =>
    if !b then some false else member_vercond_check a)

/-! ## `nifgen/types.py` : type/schema model -/

/-- The `_BUILTIN_TYPES` table from `types.py`. -/
def BUILTIN_TYPES : List (String × String) :=
  [("uint64", "u64"), ("int64", "i64"), ("ulittle32", "u32"), ("uint", "u32"),
   ("int", "i32"), ("ushort", "u16"), ("short", "i16"), ("char", "i8"),
   ("byte", "u8"), ("bool", "bool"), ("float", "f32"), ("hfloat", "f16"),
   ("string", "NiString"), ("#T#", "T")]

/-- The `_RUST_KEYWORDS` list from `types.py`. -/
def RUST_KEYWORDS : List String :=
  ["as", "break", "const", "continue", "crate", "else", "enum", "extern",
   "false", "fn", "for", "if", "impl", "in", "let", "loop", "match", "mod",
   "move", "mut", "pub", "ref", "return", "self", "Self", "static", "struct",
   "super", "trait", "true", "type", "unsafe", "use", "where", "while", "async",
   "await", "dyn", "abstract", "become", "box", "do", "final", "macro",
   "override", "priv", "typeof", "unsized", "virtual", "yield", "try"]

/-- Function `_convert_struct_name` from `types.py`: `name[0].upper() + name[1:]`.
`none` models the `IndexError` on an empty name. -/
def convert_struct_name (name : String) : Option String :=
  match name.data with
  | [] => none
  | c :: cs => some (String.mk (c.toUpper :: cs))

/-- Function `convert_field_name` from `types.py`. -/
def convert_field_name (name : String) : String :=
  if name == "#ARG#" then "arg"
  else if strHasChar name '.' then
    "FileVersion(" ++ String.intercalate ", " (pySplit name ".") ++ ")"
  else
    let n := pyReplace (pyReplace (pyLower name) " " "_") ":" ""
    if RUST_KEYWORDS.contains n then "r#" ++ n else n

/-- Function `_convert_variant_name` from `types.py`. -/
def convert_variant_name (name : String) : String :=
  pyReplace (pyReplace name " " "") ":" ""

/-- Function `_convert_type` from `types.py` applied to a present (non-`None`) name:
builtin lookup, else `_convert_struct_name`.  (Python evaluates the
`dict.get` default eagerly, but `_convert_struct_name` only raises on the
empty string, which is not a builtin, so the results coincide.) -/
def convert_type1 (ty : String) : Option String :=
  match BUILTIN_TYPES.lookup ty with
  | some t => some t
  | none => convert_struct_name ty

/-- Function `_convert_type` from `types.py` on an optional name (`None` maps to `None`). -/
def convert_type_opt : Option String → Option (Option String)
  | none => some none
  | some ty => (convert_type1 ty).map some

/-- Function `_format_doc` from `types.py`.  Python `splitlines` is modelled by
splitting on `'\n'`; the specification's documentation text uses plain
newlines. -/
def format_doc (doc : Option String) : String :=
  match doc with
  | none => ""
  | some d =>
    if d == "" then ""
    else
      let lines := (pySplit (pyStrip d) "\n").map pyStrip
      String.join (lines.map (fun l => "/// " ++ l ++ "\n"))

/-- The `Type` data class from `types.py` (named `Ty` here; `Type` is a Lean
keyword). -/
structure Ty where
  ty : String
  t_arg : Option String
  arr1 : Option String
  arr2 : Option String
  arg : Option String
  cond : Option String
  ver1 : Option String
  ver2 : Option String
deriving DecidableEq

/-- Method `Type.from_xml` from `types.py`; `none` models the `KeyError` on a
missing `type` attribute (and the `IndexError` inside `_convert_type`). -/
def Ty.from_xml (a : Attrib) : Option Ty :=
  a.type.bind (fun tyRaw =>
    (convert_type1 tyRaw).bind (fun ty =>
      (convert_type_opt a.template).map (fun t_arg =>
        { ty := ty, t_arg := t_arg, arr1 := a.arr1, arr2 := a.arr2,
          arg := a.arg, cond := a.cond, ver1 := a.ver1, ver2 := a.ver2 })))

/-- Method `Type.matches` from `types.py`: base type, generic argument, the two
array expressions and the argument expression; nothing else. -/
def Ty.matches (self other : Ty) : Bool :=
  self.ty == other.ty && self.t_arg == other.t_arg && self.arr1 == other.arr1
    && self.arr2 == other.arr2 && self.arg == other.arg

/-- Method `Type.get_inner_type` from `types.py`. -/
def Ty.get_inner_type (t : Ty) : String :=
  if truthy t.t_arg then t.ty ++ "<" ++ strOfOpt t.t_arg ++ ">" else t.ty

/-- Method `Type.get_full_type` from `types.py`. -/
def Ty.get_full_type (t : Ty) : String :=
  let ty := t.get_inner_type
  if truthy t.arr1 then
    if pyIsNumeric (strOfOpt t.arr1) then
      if truthy t.arr2 && pyIsNumeric (strOfOpt t.arr2) then
        "[" ++ ty ++ "; " ++ strOfOpt t.arr1 ++ " + " ++ strOfOpt t.arr2 ++ "]"
      else
        "[" ++ ty ++ "; " ++ strOfOpt t.arr1 ++ "]"
    else
      "Vec<" ++ ty ++ ">"
  else ty

/-- Method `Type.is_optional` from `types.py`: the condition is not `None`. -/
def Ty.is_optional (t : Ty) : Bool := t.cond.isSome

/-- Method `Type.__str__` from `types.py`. -/
def Ty.str (t : Ty) : String :=
  if t.is_optional then "Option<" ++ t.get_full_type ++ ">" else t.get_full_type

/-- Python `dict` assignment `d[k] = v` on an insertion-ordered map: update
in place when the key exists, else append. -/
def dictSet {β : Type} (m : List (String × β)) (k : String) (v : β) : List (String × β) :=
  match m with
  | [] => [(k, v)]
  | (k', v') :: rest => if k' == k then (k', v) :: rest else (k', v') :: dictSet rest k v

/-- One XML element: its attribute dictionary, its text, and its child
elements' attribute dictionaries (the members/options/flags). -/
structure Entry where
  attrib : Attrib
  text : Option String := none
  children : List Attrib := []

/-- The `Compound` data class from `types.py`. -/
structure Compound where
  name : String
  doc : String
  generic : Bool
  fields : List (String × Ty)
deriving DecidableEq

/-- The body of the field loop of `Compound.from_xml`: the `filter` of
`should_emit_member`, the duplicate-name skip (`continue`), and the
insertion `obj.fields[name] = Type.from_xml(field.attrib)`. -/
def Compound.processField (st : List (String × Ty)) (f : Attrib) : Option (List (String × Ty)) :=
  (should_emit_member f).bind (fun b =>
    if !b then some st
    else
      f.name.bind (fun nameRaw =>
        let name := convert_field_name nameRaw
        if (st.lookup name).isSome then some st
        else (Ty.from_xml f).map (fun field => dictSet st name field)))

/-- Method `Compound.from_xml` from `types.py`. -/
def Compound.from_xml (entry : Entry) : Option Compound := do
  let nameRaw ← entry.attrib.name
  let name ← convert_type1 nameRaw
  let doc := format_doc entry.text
  let generic := (match entry.attrib.generic with
                  | some g => g == "true"
                  | none => false)
  let fields ← entry.children.foldlM Compound.processField []
  pure { name := name, doc := doc, generic := generic, fields := fields }

/-- The `NiObject` data class from `types.py`. -/
structure NiObject where
  name : String
  doc : String
  parent : String
  fields : List (String × Ty)
deriving DecidableEq

/-- The three lines printed on a field redeclaration with incompatible
signature in `NiObject.from_xml`. -/
def redeclMsg (name objName : String) (old new : Ty) : List String :=
  ["Redeclaration of field " ++ name ++ " in " ++ objName ++ ", with incompatible signature:",
   " old: " ++ old.str,
   " new: " ++ new.str]

/-- The body of the field loop of `NiObject.from_xml`: filtering, the
duplicate handling (drop / OR-merge / report) and the `NiPalette.palette`
special case.  The state is the field map plus the list of printed
diagnostic lines. -/
def NiObject.processField (objName : String) (st : List (String × Ty) × List String)
    (f : Attrib) : Option (List (String × Ty) × List String) :=
  (should_emit_member f).bind (fun b =>
    if !b then some st
    else
      f.name.bind (fun nameRaw =>
        let name := convert_field_name nameRaw
        (Ty.from_xml f).map (fun field =>
          match st.1.lookup name with
          | some old =>
            if !truthy field.cond && !truthy old.cond then st
            else if !field.matches old && (objName != "NiPalette" || name != "palette") then
              (st.1, st.2 ++ redeclMsg name objName old field)
            else
              (dictSet st.1 name
                { old with
                  cond := some ("(" ++ strOfOpt old.cond ++ ") #OR# (" ++ strOfOpt field.cond ++ ")") },
                st.2)
          | none =>
            let field :=
              if objName == "NiPalette" && name == "palette" then
                { field with arr1 := some "Num Entries", cond := none }
              else field
            (dictSet st.1 name field, st.2))))

/-- Method `NiObject.from_xml` from `types.py`; the second component collects the
diagnostic lines the Python code prints. -/
def NiObject.from_xml (entry : Entry) : Option (NiObject × List String) := do
  let nameRaw ← entry.attrib.name
  let name ← convert_struct_name nameRaw
  let doc := format_doc entry.text
  let parent ← entry.attrib.inherit
  let st ← entry.children.foldlM (NiObject.processField name) ([], [])
  pure ({ name := name, doc := doc, parent := parent, fields := st.1 }, st.2)

/-- The `BitFlags` data class from `types.py`. -/
structure BitFlags where
  name : String
  doc : String
  storage : String
  flags : List (String × Int)
deriving DecidableEq

/-- The body of the flag loop of `BitFlags.from_xml`. -/
def BitFlags.processFlag (entryPfix : Option String) (st : List (String × Int))
    (f : Attrib) : Option (List (String × Int)) :=
  (should_emit_member f).bind (fun b =>
    if !b then some st
    else
      f.bit.bind (fun bitRaw =>
        (pyToInt bitRaw).bind (fun bit =>
          f.name.map (fun nameRaw =>
            let name := convert_variant_name nameRaw
            let name := match entryPfix with
                        | some p => p ++ "_" ++ name
                        | none => name
            dictSet st name bit))))

/-- Method `BitFlags.from_xml` from `types.py`. -/
def BitFlags.from_xml (entry : Entry) : Option BitFlags := do
  let name ← entry.attrib.name
  let doc := format_doc entry.text
  let storageRaw ← entry.attrib.storage
  let storage ← convert_type1 storageRaw
  let flags ← entry.children.foldlM (BitFlags.processFlag entry.attrib.pfix) []
  pure { name := name, doc := doc, storage := storage, flags := flags }

/-! ## `nifgen/expr.py` : expression parser

The three regular expressions of `expr.py` use only literals, the classes
`.`, `\w`, `\W`, greedy starred classes, one alternation and numbered
groups.  They are embedded as abstract syntax (`RE`) with a matcher that
enumerates, in Python's backtracking priority order (alternatives left
first, starred classes longest first), every way of matching a prefix of
the input; `re.search` takes the first match at the leftmost start
position. -/

/-- A character class of the patterns: `.` (anything but newline), `\w`,
`\W`. -/
inductive CharCls where
  | any
  | word
  | nonword
deriving DecidableEq

/-- Python `\w` on ASCII: `[A-Za-z0-9_]`. -/
def isWordChar (c : Char) : Bool := c.isAlphanum || c == '_'

/-- Does the class accept the character? -/
def CharCls.matchc : CharCls → Char → Bool
  | .any, c => c != '\n'
  | .word, c => isWordChar c
  | .nonword, c => !isWordChar c

/-- The regular-expression fragment used by `expr.py`: literals, character
classes, greedily starred classes, concatenation, alternation and numbered
capture groups. -/
inductive RE where
  | lit (c : Char)
  | cls (k : CharCls)
  | star (k : CharCls)
  | seq (a b : RE)
  | alt (a b : RE)
  | group (i : Nat) (a : RE)

/-- All ways of matching a prefix of `s`, in backtracking priority order:
each result is the remaining suffix together with the captured groups. -/
def reMatch : RE → List Char → List (List Char × List (Nat × List Char))
  | .lit c, s =>
    match s with
    | [] => []
    | x :: rest => if x == c then [(rest, [])] else []
  | .cls k, s =>
    match s with
    | [] => []
    | x :: rest => if k.matchc x then [(rest, [])] else []
  | .star k, s =>
    let run := (s.takeWhile k.matchc).length
    (List.range (run + 1)).map (fun j => (s.drop (run - j), []))
  | .seq a b, s =>
    (reMatch a s).flatMap (fun p =>
      (reMatch b p.1).map (fun q => (q.1, p.2 ++ q.2)))
  | .alt a b, s => reMatch a s ++ reMatch b s
  | .group i a, s =>
    (reMatch a s).map (fun p => (p.1, p.2 ++ [(i, s.take (s.length - p.1.length))]))

/-- Python `re.search`: try the match at every start position, leftmost
first, and return the captures of the first match found. -/
def reSearch (r : RE) (s : List Char) : Option (List (Nat × List Char)) :=
  match reMatch r s with
  | p :: _ => some p.2
  | [] =>
    match s with
    | [] => none
    | _ :: t => reSearch r t

/-- Right-nested concatenation of a nonempty list of fragments. -/
def reSeq (r : RE) (rs : List RE) : RE :=
  match rs with
  | [] => r
  | r2 :: rest => RE.seq r (reSeq r2 rest)

/-- The operator alternation `(\W\w*\W|\W*)` shared by all three patterns
(without its group wrapper). -/
def opRE : RE :=
  RE.alt (reSeq (RE.cls CharCls.nonword) [RE.star CharCls.word, RE.cls CharCls.nonword])
    (RE.star CharCls.nonword)

/-- Pattern `EXPR_RE_1` from `expr.py`: `(.*)\((.*)\) (\W\w*\W|\W*) \((.*)\)`. -/
def EXPR_RE_1 : RE :=
  reSeq (RE.group 1 (RE.star CharCls.any))
    [RE.lit '(', RE.group 2 (RE.star CharCls.any), RE.lit ')', RE.lit ' ', RE.group 3 opRE,
     RE.lit ' ', RE.lit '(', RE.group 4 (RE.star CharCls.any), RE.lit ')']

/-- Pattern `EXPR_RE_2` from `expr.py`: `(.*)\((.*) (\W\w*\W|\W*) (.*)\)`. -/
def EXPR_RE_2 : RE :=
  reSeq (RE.group 1 (RE.star CharCls.any))
    [RE.lit '(', RE.group 2 (RE.star CharCls.any),
     RE.lit ' ', RE.group 3 opRE, RE.lit ' ', RE.group 4 (RE.star CharCls.any), RE.lit ')']

/-- Pattern `EXPR_RE_3` from `expr.py`: `(.*) (\W\w*\W|\W*) (.*)`. -/
def EXPR_RE_3 : RE :=
  reSeq (RE.group 1 (RE.star CharCls.any))
    [RE.lit ' ', RE.group 2 opRE, RE.lit ' ', RE.group 3 (RE.star CharCls.any)]

/-- The `OPERATORS` table from `expr.py`, in source order. -/
def OPERATORS : List (String × String) :=
  [("#ADD#", "+"), ("#SUB#", "-"), ("#MUL#", "*"), ("#DIV#", "/"),
   ("#AND#", "&&"), ("#OR#", "||"), ("#LT#", "<"), ("#GT#", ">"),
   ("#LTE#", "<="), ("#GTE#", ">="), ("#EQ#", "=="), ("#NEQ#", "!="),
   ("#RSH#", ">>"), ("#LSH#", "<<"), ("#BITAND#", "&"), ("#BITOR#", "|")]

/-- Function `_contains_any_operator` from `expr.py`: some symbolic token or native
spelling occurs as a substring. -/
def contains_any_operator (s : String) : Bool :=
  OPERATORS.any (fun kv => pyIn kv.1 s || pyIn kv.2 s)

/-- Python `result.group(i)` on a successful search. -/
def capStr (caps : List (Nat × List Char)) (i : Nat) : Option String :=
  (caps.lookup i).map String.mk

/-- Function `parse_expression` from `expr.py`, fuelled for termination.  Every
recursive call is on a captured operand, which the patterns surround with at
least two consumed characters, so any fuel exceeding the string length is
enough.  `none` models the `AttributeError` raised when no pattern matches
(`result` is `None`). -/
def parse_expression_aux : Nat → String → Option String
  | 0, _ => none
  | fuel + 1, expr =>
    if strHasChar expr '(' || strHasChar expr ')' || contains_any_operator expr then do
      let (caps, noUnary) ←
        match reSearch EXPR_RE_1 expr.data with
        | some caps => some (caps, false)
        | none =>
          match reSearch EXPR_RE_2 expr.data with
          | some caps => some (caps, false)
          | none =>
            match reSearch EXPR_RE_3 expr.data with
            | some caps => some (caps, true)
            | none => none
      let gi : Nat → Nat := fun j => if noUnary then j else j + 1
      let unary : Option String ←
        if noUnary then pure none else (capStr caps 1).map some
      let g1 ← capStr caps (gi 1)
      let e1 ← parse_expression_aux fuel g1
      let expr1 := if strHasChar e1 ' ' && !pyStartsWith e1 "FileVersion" then "(" ++ e1 ++ ")" else e1
      let op ← capStr caps (gi 2)
      if pyStrip op == "|" then
        return expr1
      let g2 ← capStr caps (gi 3)
      let e2 ← parse_expression_aux fuel g2
      let expr2 := if strHasChar e2 ' ' && !pyStartsWith e2 "FileVersion" then "(" ++ e2 ++ ")" else e2
      let op := (OPERATORS.lookup op).getD op
      let res := expr1 ++ " " ++ op ++ " " ++ expr2
      match unary with
      | some u => if u != "" then return u ++ "(" ++ res ++ ")" else return res
      | none => return res
    else
      if !pyIsNumeric expr then
        return convert_field_name expr
      else
        return expr

/-- Function `parse_expression` from `expr.py`. -/
def parse_expression (expr : String) : Option String :=
  parse_expression_aux (expr.data.length + 1) expr

/-! ## Declarative (specification-side) descriptions

These restate what the specification asserts in its own words, for
comparison against the embedded code. -/

/-- Component-wise short-circuiting comparison of a list of
`(string component, target component)` pairs: the first unequal pair
decides, equal lists are `EXACT`. -/
def lexRel : List (Nat × Nat) → VersionRelation
  | [] => VersionRelation.EXACT
  | (a, b) :: rest =>
    if a < b then VersionRelation.LOWER
    else if a > b then VersionRelation.HIGHER
    else lexRel rest

/-- The spec's `since`/`until` range for one target deployment version: the
comparison of the target against `since` must not be `HIGHER`, and, when
`until` is present, neither must the comparison against `until`; an absent
`since` is unconditional.  (Only meaningful when no `versions` attribute is
present, which is the only reachable case in `should_emit_struct`.) -/
def struct_version_ok (a : Attrib) (v : VersionInfo) : Prop :=
  match a.since with
  | none => True
  | some s =>
    (∃ r, check_version v s = some r ∧ r ≠ VersionRelation.HIGHER) ∧
    (∀ u, a.vuntil = some u → ∃ r, check_version v u = some r ∧ r ≠ VersionRelation.HIGHER)

/-- The spec's `ver1`/`ver2` range for one target deployment version:
`ver1` must not compare `HIGHER` than the target, `ver2` must not compare
`LOWER`. -/
def member_version_ok (a : Attrib) (v : VersionInfo) : Prop :=
  (∀ s, a.ver1 = some s → ∃ r, check_version v s = some r ∧ r ≠ VersionRelation.HIGHER) ∧
  (∀ s, a.ver2 = some s → ∃ r, check_version v s = some r ∧ r ≠ VersionRelation.LOWER)

/-! ## Helper lemmas -/

theorem listSplitOnAux_ne_nil (sep : List Char) (l : List Char) (skip : Nat) (acc : List Char) :
    listSplitOnAux sep l skip acc ≠ [] := by
  induction l generalizing skip acc with
  | nil => simp [listSplitOnAux]
  | cons c rest ih =>
    match skip with
    | skip + 1 => simpa [listSplitOnAux] using ih skip acc
    | 0 =>
      simp only [listSplitOnAux]
      split
      · simp
      · exact ih 0 (c :: acc)

theorem listSplitOnAux_acc (sep : List Char) (l : List Char) (skip : Nat) (acc : List Char) :
    listSplitOnAux sep l skip acc =
      (listSplitOnAux sep l skip []).modifyHead (fun h => acc.reverse ++ h) := by
  induction l generalizing skip acc with
  | nil => simp [listSplitOnAux]
  | cons c rest ih =>
    match skip with
    | skip + 1 =>
      simp only [listSplitOnAux]
      exact ih skip acc
    | 0 =>
      simp only [listSplitOnAux]
      split
      · cases h : listSplitOnAux sep rest (sep.length - 1) [] with
        | nil => exact absurd h (listSplitOnAux_ne_nil sep rest (sep.length - 1) [])
        | cons a t => simp
      · rw [ih 0 (c :: acc), ih 0 [c]]
        cases h : listSplitOnAux sep rest 0 [] with
        | nil => exact absurd h (listSplitOnAux_ne_nil sep rest 0 [])
        | cons a t => simp

@[simp] theorem data_mk (l : List Char) : (String.mk l).data = l := rfl

theorem listSplitOn_cons_not_sep (sep : List Char) (c : Char) (s : List Char)
    (h : sep.isPrefixOf (c :: s) = false) :
    listSplitOn sep (c :: s) = (listSplitOn sep s).modifyHead (fun seg => c :: seg) := by
  unfold listSplitOn
  simp only [listSplitOnAux, h, Bool.false_eq_true, if_false]
  rw [listSplitOnAux_acc sep s 0 [c]]
  simp

theorem anyM_nil {α : Type} (f : α → Option Bool) : anyM f [] = some false := rfl

theorem anyM_cons {α : Type} (f : α → Option Bool) (x : α) (xs : List α) :
    anyM f (x :: xs) = (f x).bind (fun bx => if bx then some true else anyM f xs) := rfl

theorem anyM_eq_some_true_iff {α : Type} (f : α → Option Bool) (l : List α) (b : Bool)
    (h : anyM f l = some b) : b = true ↔ ∃ x ∈ l, f x = some true := by
  induction l with
  | nil =>
    rw [anyM_nil] at h
    cases h
    simp
  | cons x xs ih =>
    rw [anyM_cons] at h
    cases hx : f x with
    | none => rw [hx] at h; cases h
    | some bx =>
      rw [hx, Option.some_bind] at h
      cases bx with
      | true =>
        rw [if_pos rfl] at h
        cases h
        simp only [List.mem_cons, true_iff]
        exact ⟨x, Or.inl rfl, hx⟩
      | false =>
        rw [if_neg (by simp)] at h
        rw [ih h]
        constructor
        · rintro ⟨y, hy, hfy⟩
          exact ⟨y, List.mem_cons_of_mem x hy, hfy⟩
        · rintro ⟨y, hy, hfy⟩
          rcases List.mem_cons.mp hy with rfl | hy'
          · rw [hx] at hfy; cases hfy
          · exact ⟨y, hy', hfy⟩

theorem anyM_eq_some_false {α : Type} (f : α → Option Bool) (l : List α)
    (h : anyM f l = some false) : ∀ x ∈ l, f x = some false := by
  induction l with
  | nil => simp
  | cons x xs ih =>
    rw [anyM_cons] at h
    cases hx : f x with
    | none => rw [hx] at h; cases h
    | some bx =>
      rw [hx, Option.some_bind] at h
      cases bx with
      | true => rw [if_pos rfl] at h; cases h
      | false =>
        rw [if_neg (by simp)] at h
        intro y hy
        rcases List.mem_cons.mp hy with rfl | hy'
        · exact hx
        · exact ih h y hy'

theorem check_version_lexRel (v : VersionInfo) (s : String) (parts : List Nat)
    (h : (split_version_string s).mapM pyToNat = some parts) :
    check_version v s =
      some (lexRel [(parts.getD 0 0, v.major), (parts.getD 1 0, v.minor),
        (parts.getD 2 0, v.micro), (parts.getD 3 0, v.patch)]) := by
  simp only [check_version, h, Option.bind_eq_bind, Option.some_bind, lexRel]
  split_ifs <;> rfl

theorem listSplitOn_ne_nil (sep : List Char) (l : List Char) : listSplitOn sep l ≠ [] :=
  listSplitOnAux_ne_nil sep l 0 []

theorem splitStrip_V (sep0 : Char) (hne : (sep0 == 'V') = false) (seprest : List Char)
    (d : List Char) :
    (match List.map String.mk (listSplitOn (sep0 :: seprest) ('V' :: d)) with
     | [] => ([] : List String)
     | p :: rest => String.mk (p.data.dropWhile (fun c => c == 'V')) :: rest) =
    (match List.map String.mk (listSplitOn (sep0 :: seprest) d) with
     | [] => ([] : List String)
     | p :: rest => String.mk (p.data.dropWhile (fun c => c == 'V')) :: rest) := by
  rw [listSplitOn_cons_not_sep (sep0 :: seprest) 'V' d (by simp [List.isPrefixOf, hne])]
  cases hL : listSplitOn (sep0 :: seprest) d with
  | nil => exact absurd hL (listSplitOn_ne_nil (sep0 :: seprest) d)
  | cons p rest =>
    simp [List.modifyHead, List.dropWhile]

theorem split_version_string_V (s : String) :
    split_version_string (String.mk ('V' :: s.data)) = split_version_string s := by
  unfold split_version_string
  have hc : strHasChar (String.mk ('V' :: s.data)) '.' = strHasChar s '.' := by
    simp [strHasChar, List.contains_cons]
  rw [hc]
  cases hdot : strHasChar s '.' with
  | true =>
    simp only [hdot, if_true]
    simp only [pySplit]
    exact splitStrip_V '.' (by decide) [] s.data
  | false =>
    simp only [hdot, Bool.false_eq_true, if_false]
    simp only [pySplit]
    exact splitStrip_V '_' (by decide) [] s.data

theorem check_version_strip_V (v : VersionInfo) (s : String) :
    check_version v (String.mk ('V' :: s.data)) = check_version v s := by
  unfold check_version
  rw [split_version_string_V]

theorem anyM_eq_some_true {α : Type} (f : α → Option Bool) (l : List α)
    (hall : ∀ x ∈ l, (f x).isSome) (hex : ∃ x ∈ l, f x = some true) :
    anyM f l = some true := by
  induction l with
  | nil => simp at hex
  | cons x xs ih =>
    rw [anyM_cons]
    cases hx : f x with
    | none =>
      have := hall x (List.mem_cons_self x xs)
      rw [hx] at this; cases this
    | some bx =>
      cases bx with
      | true => rw [Option.some_bind, if_pos rfl]
      | false =>
        rw [Option.some_bind, if_neg (by simp)]
        apply ih
        · intro y hy; exact hall y (List.mem_cons_of_mem x hy)
        · rcases hex with ⟨y, hy, hfy⟩
          rcases List.mem_cons.mp hy with rfl | hy'
          · rw [hx] at hfy; cases hfy
          · exact ⟨y, hy', hfy⟩

theorem check_version_isSome_iff (v : VersionInfo) (s : String) :
    (check_version v s).isSome = ((split_version_string s).mapM pyToNat).isSome := by
  unfold check_version
  cases h : (split_version_string s).mapM pyToNat with
  | none => simp
  | some parts =>
    simp only [Option.bind_eq_bind, Option.some_bind, Option.isSome_some]
    split_ifs <;> rfl

theorem check_target_struct_true_iff (a : Attrib) (v : VersionInfo)
    (hv : a.versions = none) :
    check_target_version_struct a v = some true ↔ struct_version_ok a v := by
  cases hs : a.since with
  | none =>
    simp [check_target_version_struct, struct_version_ok, hv, hs]
  | some s =>
    simp only [check_target_version_struct, struct_version_ok, hv, hs]
    cases hr : check_version v s with
    | none =>
      simp only [Option.none_bind]
      constructor
      · intro h; cases h
      · rintro ⟨⟨r, hr2, -⟩, -⟩
        cases hr2
    | some r =>
      simp only [Option.some_bind]
      by_cases hrH : r = VersionRelation.HIGHER
      · subst hrH
        simp only [bne_self_eq_false]
        cases a.vuntil with
        | none =>
          constructor
          · intro h; cases h
          · rintro ⟨⟨r', hr', hne⟩, -⟩
            cases hr'
            exact absurd rfl hne
        | some u =>
          simp only [Bool.false_eq_true, if_false]
          constructor
          · intro h; cases h
          · rintro ⟨⟨r', hr', hne⟩, -⟩
            cases hr'
            exact absurd rfl hne
      · have hx : (r != VersionRelation.HIGHER) = true := bne_iff_ne.mpr hrH
        cases hu : a.vuntil with
        | none =>
          rw [hx]
          constructor
          · intro _
            exact ⟨⟨r, rfl, hrH⟩, by rintro u hu2; cases hu2⟩
          · intro _; rfl
        | some u =>
          simp only [hx, eq_self_iff_true, if_true]
          cases hru : check_version v u with
          | none =>
            simp only [Option.map_none']
            constructor
            · intro h; cases h
            · rintro ⟨-, hforall⟩
              rcases hforall u rfl with ⟨r2, hr2, -⟩
              rw [hru] at hr2
              cases hr2
          | some r2 =>
            simp only [Option.map_some', Option.some.injEq, Bool.true_and]
            constructor
            · intro h
              refine ⟨⟨r, rfl, hrH⟩, ?_⟩
              rintro u' hu'
              cases hu'
              rw [hru]
              exact ⟨r2, rfl, bne_iff_ne.mp h⟩
            · rintro ⟨-, hforall⟩
              rcases hforall u rfl with ⟨r2', hr2', hne2⟩
              rw [hru] at hr2'
              cases hr2'
              exact bne_iff_ne.mpr hne2

theorem ver1_ok_true_iff (a : Attrib) (v : VersionInfo) :
    ver1_ok a v = some true ↔
      (∀ s, a.ver1 = some s →
        ∃ r, check_version v s = some r ∧ r ≠ VersionRelation.HIGHER) := by
  cases h1 : a.ver1 with
  | none =>
    simp only [ver1_ok, h1]
    constructor
    · rintro - s hs; cases hs
    · intro _; trivial
  | some s =>
    simp only [ver1_ok, h1]
    cases hr : check_version v s with
    | none =>
      simp only [hr, Option.map_none']
      constructor
      · intro h; cases h
      · intro h
        rcases h s rfl with ⟨r, hr2, -⟩
        rw [hr] at hr2
        cases hr2
    | some r =>
      simp only [hr, Option.map_some', Option.some.injEq]
      constructor
      · intro h
        rintro s' hs'
        cases hs'
        refine ⟨r, hr, ?_⟩
        simpa [Bool.not_eq_true', beq_eq_false_iff_ne] using h
      · intro h
        rcases h s rfl with ⟨r', hr', hne⟩
        rw [hr] at hr'
        cases hr'
        simpa [Bool.not_eq_true', beq_eq_false_iff_ne] using hne

theorem ver2_ok_true_iff (a : Attrib) (v : VersionInfo) :
    ver2_ok a v = some true ↔
      (∀ s, a.ver2 = some s →
        ∃ r, check_version v s = some r ∧ r ≠ VersionRelation.LOWER) := by
  cases h2 : a.ver2 with
  | none =>
    simp only [ver2_ok, h2]
    constructor
    · rintro - s hs; cases hs
    · intro _; trivial
  | some s =>
    simp only [ver2_ok, h2]
    cases hr : check_version v s with
    | none =>
      simp only [hr, Option.map_none']
      constructor
      · intro h; cases h
      · intro h
        rcases h s rfl with ⟨r, hr2, -⟩
        rw [hr] at hr2
        cases hr2
    | some r =>
      simp only [hr, Option.map_some', Option.some.injEq]
      constructor
      · intro h
        rintro s' hs'
        cases hs'
        refine ⟨r, hr, ?_⟩
        simpa [Bool.not_eq_true', beq_eq_false_iff_ne] using h
      · intro h
        rcases h s rfl with ⟨r', hr', hne⟩
        rw [hr] at hr'
        cases hr'
        simpa [Bool.not_eq_true', beq_eq_false_iff_ne] using hne

theorem check_target_member_true_iff (a : Attrib) (v : VersionInfo) :
    check_target_version_member a v = some true ↔ member_version_ok a v := by
  unfold check_target_version_member member_version_ok
  cases hb1 : ver1_ok a v with
  | none =>
    simp only [Option.none_bind]
    constructor
    · intro h; cases h
    · rintro ⟨hfa, -⟩
      exact absurd ((ver1_ok_true_iff a v).mpr hfa) (by rw [hb1]; intro h; cases h)
  | some b1 =>
    cases b1 with
    | false =>
      simp only [Option.some_bind, Bool.false_eq_true, if_false]
      constructor
      · intro h; cases h
      · rintro ⟨hfa, -⟩
        have := (ver1_ok_true_iff a v).mpr hfa
        rw [hb1] at this
        cases this
    | true =>
      simp only [Option.some_bind, eq_self_iff_true, if_true]
      rw [ver2_ok_true_iff]
      constructor
      · intro h
        exact ⟨(ver1_ok_true_iff a v).mp hb1, h⟩
      · rintro ⟨-, h2⟩
        exact h2

/-! ## Claims -/

/-- C1 counterexample: the claim states
`check_version((20,1,0,3), "20.1.0.4") = LOWER`, but the code compares the
parsed *string* against the target tuple, and `(20,1,0,4)` is component-wise
above `(20,1,0,3)`, so the result is `HIGHER`, not `LOWER`. -/
theorem C1_counterexample :
    check_version ⟨20, 1, 0, 3⟩ "20.1.0.4" = some VersionRelation.HIGHER ∧
    check_version ⟨20, 1, 0, 3⟩ "20.1.0.4" ≠ some VersionRelation.LOWER := by
  constructor
  · decide
  · decide

/-- C1 (amended): `check_version(v, s)` splits `s` on `.` if present,
otherwise on `_`, strips leading `V`s from the first component only,
defaults missing trailing components to 0, and compares component-wise,
short-circuiting at the first unequal component — the result being the
parsed string's relation to the target tuple, so
`check_version((20,1,0,3), "20.1.0.4") = HIGHER` and
`check_version((20,2,0,7), "20_2_0_7") = EXACT`.
Conjunct 1: whenever the components parse, the result is exactly the
short-circuiting component-wise comparison (`lexRel`) of the parsed
components, padded with 0, against the target tuple.  Conjunct 2: a leading
`V` on the string never changes the result.  Conjuncts 3 and 4: the two
concrete evaluations. -/
theorem C1_check_version :
    (∀ (v : VersionInfo) (s : String) (parts : List Nat),
      (split_version_string s).mapM pyToNat = some parts →
      check_version v s =
        some (lexRel [(parts.getD 0 0, v.major), (parts.getD 1 0, v.minor),
          (parts.getD 2 0, v.micro), (parts.getD 3 0, v.patch)])) ∧
    (∀ (v : VersionInfo) (s : String),
      check_version v (String.mk ('V' :: s.data)) = check_version v s) ∧
    check_version ⟨20, 1, 0, 3⟩ "20.1.0.4" = some VersionRelation.HIGHER ∧
    check_version ⟨20, 2, 0, 7⟩ "20_2_0_7" = some VersionRelation.EXACT := by
  refine ⟨check_version_lexRel, check_version_strip_V, ?_, ?_⟩
  · decide
  · decide

/-- C1 witness: the component-wise description applied at a concrete target
and string, with the parsing hypothesis discharged by evaluation, and the
`V`-stripping clause at a concrete string. -/
theorem C1_check_version_witness :
    check_version ⟨20, 6, 0, 0⟩ "20.3.0.9" =
      some (lexRel [(20, 20), (3, 6), (0, 0), (9, 0)]) ∧
    check_version ⟨20, 2, 0, 7⟩ (String.mk ('V' :: "20_2_0_7".data)) =
      check_version ⟨20, 2, 0, 7⟩ "20_2_0_7" :=
  ⟨C1_check_version.1 ⟨20, 6, 0, 0⟩ "20.3.0.9" [20, 3, 0, 9] (by decide),
   C1_check_version.2.1 ⟨20, 2, 0, 7⟩ "20_2_0_7"⟩

/-- C2: `should_emit_struct` returns False whenever a `versions` attribute is
present (unconditionally — conjunct 1, and the witness instantiates it with a
`versions` value that EXACT-matches a target), or the module is denylisted
(conjunct 2), or the name is denylisted (conjunct 3), or the name contains
`physx` case-insensitively (conjunct 4), or the name starts with `bhk`
(conjunct 5).  Otherwise (conjunct 6) it returns True iff at least one of the
five target deployment versions satisfies the `since`/`until` range — the
comparison of the target against `since` (and against `until` when present)
not being HIGHER — and it returns True unconditionally when both `since` and
`versions` are absent. -/
theorem C2_should_emit_struct :
    (∀ a : Attrib, a.versions.isSome → should_emit_struct a = some false) ∧
    (∀ (a : Attrib) (m : String), a.module = some m → BETHESDA_MODULES.contains m →
      should_emit_struct a = some false) ∧
    (∀ (a : Attrib) (n : String), a.name = some n → EXCLUDED_NAMES.contains n →
      should_emit_struct a = some false) ∧
    (∀ (a : Attrib) (n : String), a.name = some n → pyIn "physx" (pyLower n) = true →
      should_emit_struct a = some false) ∧
    (∀ (a : Attrib) (n : String), a.name = some n → pyStartsWith n "bhk" = true →
      should_emit_struct a = some false) ∧
    (∀ a : Attrib, a.versions = none →
      a.module.any (fun m => BETHESDA_MODULES.contains m) = false →
      a.name.any (fun n => EXCLUDED_NAMES.contains n) = false →
      a.name.any (fun n => pyIn "physx" (pyLower n)) = false →
      a.name.any (fun n => pyStartsWith n "bhk") = false →
      (∀ b, should_emit_struct a = some b →
        (b = true ↔ ∃ v ∈ TARGET_VERSIONS, struct_version_ok a v)) ∧
      (a.since = none → should_emit_struct a = some true)) := by
  refine ⟨?_, ?_, ?_, ?_, ?_, ?_⟩
  · intro a h
    simp [should_emit_struct, h]
  · intro a m hm hmem
    unfold should_emit_struct
    split_ifs with h1 h2 h3 h4 h5 <;> try rfl
    exact absurd (by rw [hm]; exact hmem) h2
  · intro a n hn hmem
    unfold should_emit_struct
    split_ifs with h1 h2 h3 h4 h5 <;> try rfl
    exact absurd (by rw [hn]; exact hmem) h3
  · intro a n hn hmem
    unfold should_emit_struct
    split_ifs with h1 h2 h3 h4 h5 <;> try rfl
    exact absurd (by rw [hn]; exact hmem) h4
  · intro a n hn hmem
    unfold should_emit_struct
    split_ifs with h1 h2 h3 h4 h5 <;> try rfl
    exact absurd (by rw [hn]; exact hmem) h5
  · intro a hv h2 h3 h4 h5
    have heq : should_emit_struct a = anyM (check_target_version_struct a) TARGET_VERSIONS := by
      unfold should_emit_struct
      rw [hv]
      simp only [Option.isSome_none, Bool.false_eq_true, if_false]
      rw [if_neg (by rw [h2]; simp), if_neg (by rw [h3]; simp),
        if_neg (by rw [h4]; simp), if_neg (by rw [h5]; simp)]
    constructor
    · intro b hb
      rw [heq] at hb
      rw [anyM_eq_some_true_iff _ _ _ hb]
      exact exists_congr (fun v => and_congr_right
        (fun _ => check_target_struct_true_iff a v hv))
    · intro hsince
      rw [heq]
      have hone : check_target_version_struct a ⟨20, 1, 0, 3⟩ = some true := by
        simp [check_target_version_struct, hv, hsince]
      simp [TARGET_VERSIONS, anyM_cons, hone]

/-- C2 witness: an attribute set whose `versions` value EXACT-matches the
target `(20,2,0,7)` is still excluded; an attribute set with only
`since="20.2.0.7"` has a target version satisfying its range. -/
theorem C2_should_emit_struct_witness :
    should_emit_struct { versions := some "20.2.0.7" } = some false ∧
    (∃ v ∈ TARGET_VERSIONS, struct_version_ok { since := some "20.2.0.7" } v) :=
  ⟨C2_should_emit_struct.1 { versions := some "20.2.0.7" } rfl,
   ((C2_should_emit_struct.2.2.2.2.2 { since := some "20.2.0.7" }
      rfl rfl rfl rfl rfl).1 true (by decide)).mp rfl⟩

/-- C3: for attribute sets with neither `vercond` nor `cond`,
`should_emit_member` returns False iff every one of the five target
deployment versions fails the `ver1`/`ver2` range (conjunct 1); a field with
`ver1="20.7.0.0"` — above all five targets — is excluded (conjunct 2); and a
field whose `ver1` compares not-HIGHER against at least one target, with no
`ver2` present, is included (conjunct 3). -/
theorem C3_should_emit_member_range :
    (∀ (a : Attrib) (b : Bool), a.vercond = none → a.cond = none →
      should_emit_member a = some b →
      (b = false ↔ ∀ v ∈ TARGET_VERSIONS, ¬ member_version_ok a v)) ∧
    should_emit_member { ver1 := some "20.7.0.0" } = some false ∧
    (∀ a : Attrib, a.vercond = none → a.cond = none → a.ver2 = none →
      (∃ v ∈ TARGET_VERSIONS, ∃ s r, a.ver1 = some s ∧ check_version v s = some r ∧
        r ≠ VersionRelation.HIGHER) →
      should_emit_member a = some true) := by
  refine ⟨?_, by decide, ?_⟩
  · intro a b hvc hc hb
    unfold should_emit_member at hb
    cases hany : anyM (check_target_version_member a) TARGET_VERSIONS with
    | none => rw [hany] at hb; cases hb
    | some b0 =>
      rw [hany, Option.some_bind] at hb
      cases b0 with
      | false =>
        simp only [Bool.not_false, eq_self_iff_true, if_true, Option.some.injEq] at hb
        subst hb
        simp only [eq_self_iff_true, true_iff]
        intro v hv hok
        have := (check_target_member_true_iff a v).mpr hok
        have hfalse := anyM_eq_some_false _ _ hany v hv
        rw [this] at hfalse
        cases hfalse
      | true =>
        simp only [Bool.not_true, Bool.false_eq_true, if_false] at hb
        rw [member_vercond_check, hvc, member_cond_check, hc] at hb
        cases hb
        constructor
        · intro h; cases h
        · intro hall
          rcases (anyM_eq_some_true_iff _ _ _ hany).mp rfl with ⟨v, hv, htrue⟩
          exact absurd ((check_target_member_true_iff a v).mp htrue) (hall v hv)
  · intro a hvc hc hv2 hex
    rcases hex with ⟨v, hvmem, s, r, h1, hr, hrH⟩
    have hparse : ((split_version_string s).mapM pyToNat).isSome := by
      rw [← check_version_isSome_iff v s, hr]
      rfl
    have hall : ∀ v' ∈ TARGET_VERSIONS, (check_target_version_member a v').isSome := by
      intro v' _
      have hs1 : (check_version v' s).isSome := by
        rw [check_version_isSome_iff v' s]
        exact hparse
      rcases Option.isSome_iff_exists.mp hs1 with ⟨r', hr'⟩
      simp only [check_target_version_member, ver1_ok, ver2_ok, h1, hv2, hr',
        Option.map_some', Option.some_bind]
      split <;> rfl
    have hex2 : ∃ v' ∈ TARGET_VERSIONS, check_target_version_member a v' = some true := by
      refine ⟨v, hvmem, (check_target_member_true_iff a v).mpr ⟨?_, ?_⟩⟩
      · intro s' hs'
        rw [h1] at hs'
        cases hs'
        exact ⟨r, hr, hrH⟩
      · intro s' hs'
        rw [hv2] at hs'
        cases hs'
    have hany := anyM_eq_some_true _ _ hall hex2
    simp [should_emit_member, hany, member_vercond_check, member_cond_check, hvc, hc]

/-- C3 witness: a field with `ver1="20.1.0.3"` (EXACT against the first
target) is emitted, by conjunct 3; and by conjunct 1 applied at
`ver1="20.7.0.0"`, every target fails that range. -/
theorem C3_should_emit_member_range_witness :
    should_emit_member { ver1 := some "20.1.0.3" } = some true ∧
    (∀ v ∈ TARGET_VERSIONS, ¬ member_version_ok { ver1 := some "20.7.0.0" } v) :=
  ⟨C3_should_emit_member_range.2.2 { ver1 := some "20.1.0.3" } rfl rfl rfl
    ⟨⟨20, 1, 0, 3⟩, by decide, "20.1.0.3", VersionRelation.EXACT, rfl, by decide, by decide⟩,
   (C3_should_emit_member_range.1 { ver1 := some "20.7.0.0" } false rfl rfl
     (by decide)).mp rfl⟩

/-- C4: `should_emit_member` never returns True when a `vercond` value is
present that is not exactly `"#NISTREAM#"`, does not start with `"!"`, does
not start with `"#NI"` and does not start with `"#BSVER# #LT"` (conjunct 1);
nor when the `cond` value equals `"#BSSTREAMHEADER#"`, regardless of all
other attributes (conjunct 2).  (Whenever the function returns at all it
returns False in these cases; a malformed `ver1`/`ver2` string aborts the run
instead, which is C9's territory.)  Conjuncts 3 and 4 evaluate two such
attribute sets to False outright. -/
theorem C4_should_emit_member_allowlist :
    (∀ (a : Attrib) (vc : String), a.vercond = some vc →
      vc ≠ "#NISTREAM#" → pyStartsWith vc "!" = false → pyStartsWith vc "#NI" = false →
      pyStartsWith vc "#BSVER# #LT" = false →
      should_emit_member a ≠ some true) ∧
    (∀ a : Attrib, a.cond = some "#BSSTREAMHEADER#" →
      should_emit_member a ≠ some true) ∧
    should_emit_member { vercond := some "#BSVER# #GTE# 130" } = some false ∧
    should_emit_member { cond := some "#BSSTREAMHEADER#" } = some false := by
  refine ⟨?_, ?_, by decide, by decide⟩
  · intro a vc hvc hne h1 h2 h3 hcontra
    unfold should_emit_member at hcontra
    cases hany : anyM (check_target_version_member a) TARGET_VERSIONS with
    | none => rw [hany] at hcontra; cases hcontra
    | some b0 =>
      rw [hany, Option.some_bind] at hcontra
      cases b0 with
      | false =>
        simp only [Bool.not_false, eq_self_iff_true, if_true] at hcontra
        cases hcontra
      | true =>
        simp only [Bool.not_true, Bool.false_eq_true, if_false] at hcontra
        simp only [member_vercond_check, hvc] at hcontra
        rw [if_pos (by simp [h1, h2, h3, bne_iff_ne.mpr hne])] at hcontra
        cases hcontra
  · intro a hc hcontra
    unfold should_emit_member at hcontra
    cases hany : anyM (check_target_version_member a) TARGET_VERSIONS with
    | none => rw [hany] at hcontra; cases hcontra
    | some b0 =>
      rw [hany, Option.some_bind] at hcontra
      cases b0 with
      | false =>
        simp only [Bool.not_false, eq_self_iff_true, if_true] at hcontra
        cases hcontra
      | true =>
        simp only [Bool.not_true, Bool.false_eq_true, if_false] at hcontra
        have hcc : member_cond_check a = some false := by
          rw [member_cond_check, hc]
          rfl
        cases hvc2 : a.vercond with
        | none =>
          simp only [member_vercond_check, hvc2] at hcontra
          rw [hcc] at hcontra
          cases hcontra
        | some vc =>
          simp only [member_vercond_check, hvc2] at hcontra
          by_cases hcond : (vc != "#NISTREAM#" && !pyStartsWith vc "!" &&
              !pyStartsWith vc "#NI" && !pyStartsWith vc "#BSVER# #LT") = true
          · rw [if_pos hcond] at hcontra
            cases hcontra
          · rw [if_neg hcond, hcc] at hcontra
            cases hcontra

/-- C4 witness: the two universally quantified conjuncts applied at concrete
attribute sets — a Bethesda-specific `vercond` that misses all four
allowlist rules, and the hard-excluded `cond` value combined with other
attributes. -/
theorem C4_should_emit_member_allowlist_witness :
    should_emit_member { vercond := some "#BSVER# #GTE# 130" } ≠ some true ∧
    should_emit_member { cond := some "#BSSTREAMHEADER#", ver1 := some "20.1.0.3" } ≠ some true :=
  ⟨C4_should_emit_member_allowlist.1 { vercond := some "#BSVER# #GTE# 130" }
      "#BSVER# #GTE# 130" rfl (by decide) (by decide) (by decide) (by decide),
   C4_should_emit_member_allowlist.2.1
      { cond := some "#BSSTREAMHEADER#", ver1 := some "20.1.0.3" } rfl⟩

/-- C5 counterexample: in the `NiPalette.palette` special case it is the
*first* occurrence that is normalized (at insertion: `arr1` set to
`"Num Entries"`, condition cleared), and a second, shape-mismatched
occurrence is then OR-merged without any diagnostic — its condition becomes
`"(None) #OR# (Has Alpha)"` — rather than being "normalized in place"
(which would leave the condition `None`).  The final condition is not
`none` and the diagnostic log is empty. -/
theorem C5_counterexample :
    NiObject.from_xml
      { attrib := { name := some "NiPalette", inherit := some "NiObject" },
        children :=
          [{ name := some "Palette", type := some "ByteColor4", arr1 := some "256" },
           { name := some "Palette", type := some "ByteColor4",
             arr1 := some "Num Palette Entries", cond := some "Has Alpha" }] } =
      some ({ name := "NiPalette", doc := "", parent := "NiObject",
              fields := [("palette",
                ⟨"ByteColor4", none, some "Num Entries", none, none,
                 some "(None) #OR# (Has Alpha)", none, none⟩)] }, []) ∧
    (some "(None) #OR# (Has Alpha)" : Option String) ≠ none := by
  constructor
  · decide
  · decide

/-- C5 (amended): when a field name recurs in one object's entries,
(a) if neither occurrence has a truthy existence-condition the duplicate is
dropped and the first occurrence wins (conjunct 1);
(b) if the occurrences have matching shape, exactly one field is kept whose
condition is the textual OR of the two conditions (conjunct 2), and two
identical conditions `A`, `A` give `"(A) #OR# (A)"`, not deduplicated
(conjunct 3);
(c) on shape mismatch the three diagnostic lines are recorded and the first
occurrence is kept unchanged (conjunct 4) — except `NiPalette.palette`,
whose *first* occurrence is normalized at insertion (array expression set to
`"Num Entries"`, condition cleared, conjunct 5), and whose shape-mismatched
*second* occurrence is OR-merged without a diagnostic (conjunct 6). -/
theorem C5_niobject_field_merge :
    (∀ (objName : String) (st : List (String × Ty) × List String) (f : Attrib)
        (nm : String) (fld old : Ty),
      should_emit_member f = some true → f.name = some nm → Ty.from_xml f = some fld →
      st.1.lookup (convert_field_name nm) = some old →
      truthy fld.cond = false → truthy old.cond = false →
      NiObject.processField objName st f = some st) ∧
    (∀ (objName : String) (st : List (String × Ty) × List String) (f : Attrib)
        (nm : String) (fld old : Ty),
      should_emit_member f = some true → f.name = some nm → Ty.from_xml f = some fld →
      st.1.lookup (convert_field_name nm) = some old →
      (truthy fld.cond = true ∨ truthy old.cond = true) →
      fld.matches old = true →
      NiObject.processField objName st f =
        some (dictSet st.1 (convert_field_name nm)
          { old with cond := some ("(" ++ strOfOpt old.cond ++ ") #OR# ("
              ++ strOfOpt fld.cond ++ ")") }, st.2)) ∧
    (∀ (objName : String) (st : List (String × Ty) × List String) (f : Attrib)
        (nm : String) (fld old : Ty) (A : String),
      should_emit_member f = some true → f.name = some nm → Ty.from_xml f = some fld →
      st.1.lookup (convert_field_name nm) = some old →
      fld.cond = some A → old.cond = some A → A ≠ "" →
      fld.matches old = true →
      NiObject.processField objName st f =
        some (dictSet st.1 (convert_field_name nm)
          { old with cond := some ("(" ++ A ++ ") #OR# (" ++ A ++ ")") }, st.2)) ∧
    (∀ (objName : String) (st : List (String × Ty) × List String) (f : Attrib)
        (nm : String) (fld old : Ty),
      should_emit_member f = some true → f.name = some nm → Ty.from_xml f = some fld →
      st.1.lookup (convert_field_name nm) = some old →
      (truthy fld.cond = true ∨ truthy old.cond = true) →
      fld.matches old = false →
      (objName ≠ "NiPalette" ∨ convert_field_name nm ≠ "palette") →
      NiObject.processField objName st f =
        some (st.1, st.2 ++ redeclMsg (convert_field_name nm) objName old fld)) ∧
    (∀ (st : List (String × Ty) × List String) (f : Attrib) (nm : String) (fld : Ty),
      should_emit_member f = some true → f.name = some nm → Ty.from_xml f = some fld →
      st.1.lookup (convert_field_name nm) = none →
      convert_field_name nm = "palette" →
      NiObject.processField "NiPalette" st f =
        some (dictSet st.1 "palette" { fld with arr1 := some "Num Entries", cond := none },
          st.2)) ∧
    (∀ (st : List (String × Ty) × List String) (f : Attrib) (nm : String) (fld old : Ty),
      should_emit_member f = some true → f.name = some nm → Ty.from_xml f = some fld →
      st.1.lookup (convert_field_name nm) = some old →
      (truthy fld.cond = true ∨ truthy old.cond = true) →
      fld.matches old = false →
      convert_field_name nm = "palette" →
      NiObject.processField "NiPalette" st f =
        some (dictSet st.1 (convert_field_name nm)
          { old with cond := some ("(" ++ strOfOpt old.cond ++ ") #OR# ("
              ++ strOfOpt fld.cond ++ ")") }, st.2)) := by
  have hfalsy : ∀ (fld old : Ty), (truthy fld.cond = true ∨ truthy old.cond = true) →
      (!truthy fld.cond && !truthy old.cond) = false := by
    rintro fld old (h | h) <;> simp [h]
  refine ⟨?_, ?_, ?_, ?_, ?_, ?_⟩
  · intro objName st f nm fld old hb hnm hfld hlook hf ho
    simp only [NiObject.processField, hb, Option.some_bind, Bool.not_true,
      Bool.false_eq_true, if_false, hnm, hfld, Option.map_some', hlook, hf, ho,
      Bool.not_false, Bool.true_and, eq_self_iff_true, if_true]
  · intro objName st f nm fld old hb hnm hfld hlook hcond hmatch
    simp only [NiObject.processField, hb, Option.some_bind, Bool.not_true,
      Bool.false_eq_true, if_false, hnm, hfld, Option.map_some', hlook,
      hfalsy fld old hcond, hmatch, Bool.not_true, Bool.false_and]
  · intro objName st f nm fld old A hb hnm hfld hlook hA hoA hAne hmatch
    have ht : truthy (some A) = true := by simp [truthy, hAne]
    simp only [NiObject.processField, hb, Option.some_bind, Bool.not_true,
      Bool.false_eq_true, if_false, hnm, hfld, Option.map_some', hlook,
      hmatch, hA, hoA, strOfOpt, ht, Bool.and_self, Bool.false_and,
      Bool.not_true, if_false]
  · intro objName st f nm fld old hb hnm hfld hlook hcond hmatch hguard
    have hg : (objName != "NiPalette" || convert_field_name nm != "palette") = true := by
      rcases hguard with h | h <;> simp [bne_iff_ne.mpr h]
    simp only [NiObject.processField, hb, Option.some_bind, Bool.not_true,
      Bool.false_eq_true, if_false, hnm, hfld, Option.map_some', hlook,
      hfalsy fld old hcond, hmatch, Bool.not_false, Bool.true_and, hg,
      eq_self_iff_true, if_true]
  · intro st f nm fld hb hnm hfld hlook hpal
    have hlook2 : List.lookup "palette" st.1 = none := by rw [← hpal]; exact hlook
    simp only [NiObject.processField, hb, Option.some_bind, Bool.not_true,
      Bool.false_eq_true, if_false, hnm, hfld, Option.map_some', hpal, hlook2,
      beq_self_eq_true, Bool.and_self, eq_self_iff_true, if_true]
  · intro st f nm fld old hb hnm hfld hlook hcond hmatch hpal
    have hlook2 : List.lookup "palette" st.1 = some old := by rw [← hpal]; exact hlook
    simp only [NiObject.processField, hb, Option.some_bind, Bool.not_true,
      Bool.false_eq_true, if_false, hnm, hfld, Option.map_some', hpal, hlook2,
      hfalsy fld old hcond, hmatch, Bool.not_false, Bool.true_and,
      bne_self_eq_false, Bool.false_or, Bool.false_eq_true, if_false]

/-- C5 witness: the OR-merge conjunct applied to a concrete recurring field
with two different conditions, and the identical-condition conjunct giving
the non-deduplicated `"(A) #OR# (A)"`. -/
theorem C5_niobject_field_merge_witness :
    NiObject.processField "NiNode"
      ([("x", ⟨"u32", none, none, none, none, some "A", none, none⟩)], [])
      { name := some "X", type := some "uint", cond := some "B" } =
      some ([("x", ⟨"u32", none, none, none, none, some "(A) #OR# (B)", none, none⟩)], []) ∧
    NiObject.processField "NiNode"
      ([("x", ⟨"u32", none, none, none, none, some "A", none, none⟩)], [])
      { name := some "X", type := some "uint", cond := some "A" } =
      some ([("x", ⟨"u32", none, none, none, none, some "(A) #OR# (A)", none, none⟩)], []) :=
  ⟨C5_niobject_field_merge.2.1 "NiNode" _ _ "X"
      ⟨"u32", none, none, none, none, some "B", none, none⟩
      ⟨"u32", none, none, none, none, some "A", none, none⟩
      (by decide) rfl (by decide) (by decide) (Or.inl (by decide)) (by decide),
   C5_niobject_field_merge.2.2.1 "NiNode" _ _ "X"
      ⟨"u32", none, none, none, none, some "A", none, none⟩
      ⟨"u32", none, none, none, none, some "A", none, none⟩ "A"
      (by decide) rfl (by decide) (by decide) rfl rfl (by decide) (by decide)⟩

/-- C6 counterexample: a compound with two matching-shape declarations of
`x` under conditions `"A"` and `"B"` keeps exactly one `x` entry whose
condition is `"A"` — the first declaration unchanged — not the OR
`"(A) #OR# (B)"`: `Compound.from_xml` skips a recurring name outright
(`continue`) and never merges conditions. -/
theorem C6_counterexample :
    Compound.from_xml
      { attrib := { name := some "SkinData" },
        children :=
          [{ name := some "X", type := some "uint", cond := some "A" },
           { name := some "X", type := some "uint", cond := some "B" }] } =
      some { name := "SkinData", doc := "", generic := false,
             fields := [("x", ⟨"u32", none, none, none, none, some "A", none, none⟩)] } ∧
    (some "A" : Option String) ≠ some "(A) #OR# (B)" := by
  constructor
  · decide
  · decide

/-- C6 (amended): when `Compound.from_xml` processes two declarations of the
same field name, the field map keeps exactly one entry under that name:
the first declaration, with its condition unchanged — the second is dropped
entirely (the OR-merge exists only in `NiObject.from_xml`).  Conjunct 1:
a declaration whose (converted) name is already present leaves the state
untouched.  Conjunct 2: processing two same-named declarations from an empty
field map yields exactly the first declaration's field. -/
theorem C6_compound_duplicate_field :
    (∀ (st : List (String × Ty)) (f : Attrib) (nm : String),
      should_emit_member f = some true → f.name = some nm →
      (st.lookup (convert_field_name nm)).isSome = true →
      Compound.processField st f = some st) ∧
    (∀ (f1 f2 : Attrib) (nm1 nm2 : String) (ty1 : Ty),
      should_emit_member f1 = some true → should_emit_member f2 = some true →
      f1.name = some nm1 → f2.name = some nm2 →
      convert_field_name nm2 = convert_field_name nm1 →
      Ty.from_xml f1 = some ty1 →
      (Compound.processField [] f1).bind (fun st => Compound.processField st f2) =
        some [(convert_field_name nm1, ty1)]) := by
  have hskip : ∀ (st : List (String × Ty)) (f : Attrib) (nm : String),
      should_emit_member f = some true → f.name = some nm →
      (st.lookup (convert_field_name nm)).isSome = true →
      Compound.processField st f = some st := by
    intro st f nm hb hnm hlook
    simp only [Compound.processField, hb, Option.some_bind, Bool.not_true,
      Bool.false_eq_true, if_false, hnm, hlook, eq_self_iff_true, if_true]
  refine ⟨hskip, ?_⟩
  intro f1 f2 nm1 nm2 ty1 hb1 hb2 hnm1 hnm2 hsame hty1
  have h1 : Compound.processField [] f1 = some [(convert_field_name nm1, ty1)] := by
    simp only [Compound.processField, hb1, Option.some_bind, Bool.not_true,
      Bool.false_eq_true, if_false, hnm1, List.lookup_nil, Option.isSome_none,
      if_false, hty1, Option.map_some', dictSet]
  rw [h1, Option.some_bind]
  apply hskip _ _ nm2 hb2 hnm2
  rw [hsame]
  simp [List.lookup]

/-- C6 witness: the two-declaration scenario at concrete inputs — the same
entries as the counterexample, processed through the field loop. -/
theorem C6_compound_duplicate_field_witness :
    (Compound.processField [] { name := some "X", type := some "uint", cond := some "A" }).bind
      (fun st => Compound.processField st
        { name := some "X", type := some "uint", cond := some "B" }) =
      some [("x", ⟨"u32", none, none, none, none, some "A", none, none⟩)] :=
  C6_compound_duplicate_field.2
    { name := some "X", type := some "uint", cond := some "A" }
    { name := some "X", type := some "uint", cond := some "B" }
    "X" "X" ⟨"u32", none, none, none, none, some "A", none, none⟩
    (by decide) (by decide) rfl rfl rfl (by decide)

theorem processField_merge_eq (objName : String) (st : List (String × Ty) × List String)
    (f : Attrib) (nm : String) (fld old : Ty)
    (hb : should_emit_member f = some true) (hnm : f.name = some nm)
    (hfld : Ty.from_xml f = some fld)
    (hlook : st.1.lookup (convert_field_name nm) = some old)
    (hcond : (!truthy fld.cond && !truthy old.cond) = false)
    (hbranch : (!fld.matches old &&
      (objName != "NiPalette" || convert_field_name nm != "palette")) = false) :
    NiObject.processField objName st f =
      some (dictSet st.1 (convert_field_name nm)
        { old with cond := some ("(" ++ strOfOpt old.cond ++ ") #OR# ("
            ++ strOfOpt fld.cond ++ ")") }, st.2) := by
  simp only [NiObject.processField, hb, Option.some_bind, Bool.not_true,
    Bool.false_eq_true, if_false, hnm, hfld, Option.map_some', hlook, hcond,
    hbranch, if_false]

theorem Ty_from_xml_congr_ver (f f' : Attrib) (fld : Ty)
    (hty : f'.type = f.type) (htempl : f'.template = f.template)
    (harr1 : f'.arr1 = f.arr1) (harr2 : f'.arr2 = f.arr2) (harg : f'.arg = f.arg)
    (hcond : f'.cond = f.cond) (hfld : Ty.from_xml f = some fld) :
    Ty.from_xml f' = some { fld with ver1 := f'.ver1, ver2 := f'.ver2 } := by
  unfold Ty.from_xml at hfld ⊢
  rw [hty, htempl, harr1, harr2, harg, hcond]
  cases hft : f.type with
  | none => rw [hft] at hfld; simp at hfld
  | some t =>
    rw [hft] at hfld
    rw [Option.some_bind] at hfld ⊢
    cases hct : convert_type1 t with
    | none => rw [hct] at hfld; simp at hfld
    | some ty0 =>
      rw [hct] at hfld
      rw [Option.some_bind] at hfld ⊢
      cases hcto : convert_type_opt f.template with
      | none => rw [hcto] at hfld; simp at hfld
      | some ta =>
        rw [hcto] at hfld
        rw [Option.map_some'] at hfld ⊢
        cases hfld
        rfl

/-- C10: `Type.matches` compares exactly the base type, generic argument,
both array expressions and the argument expression (conjunct 1), so changing
`cond`, `ver1` or `ver2` on either side never changes it (conjunct 2);
consequently the OR-merge of a recurring field of matching shape stores the
*first* occurrence with only its `cond` replaced — its `ty`, `t_arg`,
`arr1`, `arr2`, `arg`, `ver1` and `ver2` are kept unchanged (conjunct 3) —
and the result does not depend on the second occurrence's `ver1`/`ver2`:
two second occurrences agreeing on every attribute except `ver1`/`ver2`
produce the same state (conjunct 4). -/
theorem C10_matches_frame :
    (∀ t1 t2 : Ty, Ty.matches t1 t2 = true ↔
      (t1.ty = t2.ty ∧ t1.t_arg = t2.t_arg ∧ t1.arr1 = t2.arr1 ∧
        t1.arr2 = t2.arr2 ∧ t1.arg = t2.arg)) ∧
    (∀ (t1 t2 : Ty) (c1 v1 w1 c2 v2 w2 : Option String),
      Ty.matches { t1 with cond := c1, ver1 := v1, ver2 := w1 }
        { t2 with cond := c2, ver1 := v2, ver2 := w2 } = Ty.matches t1 t2) ∧
    (∀ (objName : String) (st : List (String × Ty) × List String) (f : Attrib)
        (nm : String) (fld old : Ty),
      should_emit_member f = some true → f.name = some nm → Ty.from_xml f = some fld →
      st.1.lookup (convert_field_name nm) = some old →
      (truthy fld.cond = true ∨ truthy old.cond = true) →
      fld.matches old = true →
      NiObject.processField objName st f =
        some (dictSet st.1 (convert_field_name nm)
          { old with cond := some ("(" ++ strOfOpt old.cond ++ ") #OR# ("
              ++ strOfOpt fld.cond ++ ")") }, st.2)) ∧
    (∀ (objName : String) (st : List (String × Ty) × List String) (f f' : Attrib)
        (nm : String) (fld old : Ty),
      should_emit_member f = some true → should_emit_member f' = some true →
      f.name = some nm → f'.name = f.name → f'.type = f.type →
      f'.template = f.template → f'.arr1 = f.arr1 → f'.arr2 = f.arr2 →
      f'.arg = f.arg → f'.cond = f.cond →
      Ty.from_xml f = some fld →
      st.1.lookup (convert_field_name nm) = some old →
      (truthy fld.cond = true ∨ truthy old.cond = true) →
      fld.matches old = true →
      NiObject.processField objName st f' = NiObject.processField objName st f) := by
  have hfalsy : ∀ (fld old : Ty), (truthy fld.cond = true ∨ truthy old.cond = true) →
      (!truthy fld.cond && !truthy old.cond) = false := by
    rintro fld old (h | h) <;> simp [h]
  have hbr : ∀ (fld old : Ty) (objName nm : String), fld.matches old = true →
      (!fld.matches old && (objName != "NiPalette" || convert_field_name nm != "palette"))
        = false := by
    intro fld old objName nm h
    rw [h]
    simp
  refine ⟨?_, ?_, ?_, ?_⟩
  · intro t1 t2
    unfold Ty.matches
    simp [Bool.and_eq_true, and_assoc]
  · intro t1 t2 c1 v1 w1 c2 v2 w2
    rfl
  · intro objName st f nm fld old hb hnm hfld hlook hcond hmatch
    exact processField_merge_eq objName st f nm fld old hb hnm hfld hlook
      (hfalsy fld old hcond) (hbr fld old objName nm hmatch)
  · intro objName st f f' nm fld old hb hb' hnm hname hty htempl harr1 harr2 harg hcnd
      hfld hlook hcond hmatch
    have hnm' : f'.name = some nm := by rw [hname, hnm]
    have hfld' : Ty.from_xml f' = some { fld with ver1 := f'.ver1, ver2 := f'.ver2 } :=
      Ty_from_xml_congr_ver f f' fld hty htempl harr1 harr2 harg hcnd hfld
    have hmatch' : Ty.matches { fld with ver1 := f'.ver1, ver2 := f'.ver2 } old = true :=
      hmatch
    have hcond' : (truthy ({ fld with ver1 := f'.ver1, ver2 := f'.ver2 } : Ty).cond = true ∨
        truthy old.cond = true) := hcond
    rw [processField_merge_eq objName st f' nm
        { fld with ver1 := f'.ver1, ver2 := f'.ver2 } old hb' hnm' hfld' hlook
        (hfalsy _ old hcond') (hbr _ old objName nm hmatch'),
      processField_merge_eq objName st f nm fld old hb hnm hfld hlook
        (hfalsy fld old hcond) (hbr fld old objName nm hmatch)]

/-- C10 witness: the merge conjunct and the ver-discarding conjunct applied
at concrete inputs — the second occurrence carries `ver1`/`ver2` values that
do not survive into the stored field. -/
theorem C10_matches_frame_witness :
    NiObject.processField "NiNode"
      ([("x", ⟨"u32", none, none, none, some "n", some "A", some "4.0.0.2", some "20.1.0.3"⟩)], [])
      { name := some "X", type := some "uint", arg := some "n", cond := some "B",
        ver1 := some "10.0.1.0", ver2 := some "20.6.0.0" } =
      some ([("x", ⟨"u32", none, none, none, some "n", some "(A) #OR# (B)",
        some "4.0.0.2", some "20.1.0.3"⟩)], []) ∧
    NiObject.processField "NiNode"
      ([("x", ⟨"u32", none, none, none, some "n", some "A", some "4.0.0.2", some "20.1.0.3"⟩)], [])
      { name := some "X", type := some "uint", arg := some "n", cond := some "B",
        ver1 := some "10.0.1.0", ver2 := some "20.6.0.0" } =
      NiObject.processField "NiNode"
      ([("x", ⟨"u32", none, none, none, some "n", some "A", some "4.0.0.2", some "20.1.0.3"⟩)], [])
      { name := some "X", type := some "uint", arg := some "n", cond := some "B" } :=
  ⟨C10_matches_frame.2.2.1 "NiNode" _
      { name := some "X", type := some "uint", arg := some "n", cond := some "B",
        ver1 := some "10.0.1.0", ver2 := some "20.6.0.0" } "X"
      ⟨"u32", none, none, none, some "n", some "B", some "10.0.1.0", some "20.6.0.0"⟩
      ⟨"u32", none, none, none, some "n", some "A", some "4.0.0.2", some "20.1.0.3"⟩
      (by decide) rfl (by decide) (by decide) (Or.inl (by decide)) (by decide),
   C10_matches_frame.2.2.2 "NiNode" _
      { name := some "X", type := some "uint", arg := some "n", cond := some "B" }
      { name := some "X", type := some "uint", arg := some "n", cond := some "B",
        ver1 := some "10.0.1.0", ver2 := some "20.6.0.0" } "X"
      ⟨"u32", none, none, none, some "n", some "B", none, none⟩
      ⟨"u32", none, none, none, some "n", some "A", some "4.0.0.2", some "20.1.0.3"⟩
      (by decide) (by decide) rfl rfl rfl rfl rfl rfl rfl rfl (by decide) (by decide)
      (Or.inl (by decide)) (by decide)⟩

/-- C7: the three normalization examples of `parse_expression`:
a doubly-parenthesized symbolic addition, a negated singly-parenthesized
addition, and a bare symbolic conjunction. -/
theorem C7_parse_expression_examples :
    parse_expression "(fizz) #ADD# (buzz)" = some "fizz + buzz" ∧
    parse_expression "!(fizz #ADD# buzz)" = some "!(fizz + buzz)" ∧
    parse_expression "fizz #AND# buzz" = some "fizz && buzz" := by
  refine ⟨?_, ?_, ?_⟩
  · decide
  · decide
  · decide

/-- C8 counterexample: the operator-table equivalence fails for `#BITOR#`.
The native spelling `|` triggers the deliberate short-circuit — only the
left operand is returned — while the symbolic token `#BITOR#` does not
(`op.strip() == "|"` is tested before the symbolic token is translated), so
`parse_expression("a #BITOR# b") = "a | b"` but
`parse_expression("a | b") = "a"`. -/
theorem C8_counterexample :
    parse_expression "a #BITOR# b" = some "a | b" ∧
    parse_expression "a | b" = some "a" ∧
    parse_expression "a #BITOR# b" ≠ parse_expression "a | b" := by
  refine ⟨?_, ?_, ?_⟩
  · decide
  · decide
  · decide

/-- C8 (amended): for every entry of the operator table except `#BITOR#`,
replacing the symbolic token by its native spelling does not change
`parse_expression`'s output on a two-operand expression: for each of the
fifteen operators OP with native spelling op,
`parse_expression("a OP b") = parse_expression("a op b")`.  For `#BITOR#`
and its native spelling `|` the two forms differ, because `|` alone
triggers the left-operand short-circuit. -/
theorem C8_operator_table_equivalence :
    ∀ kv ∈ OPERATORS, kv.1 ≠ "#BITOR#" →
      parse_expression ("a " ++ kv.1 ++ " b") = parse_expression ("a " ++ kv.2 ++ " b") := by
  decide

/-- C8 witness: the table equivalence applied at the `#ADD#`/`+` entry. -/
theorem C8_operator_table_equivalence_witness :
    parse_expression ("a " ++ "#ADD#" ++ " b") = parse_expression ("a " ++ "+" ++ " b") :=
  C8_operator_table_equivalence ("#ADD#", "+") (by decide) (by decide)

/-- C9: malformed input aborts the run with no partial result.
Conjunct 1: `parse_expression` on any input containing a parenthesis or an
operator that none of the three grammar shapes matches produces no value
(the Python code dereferences a `None` match).  Conjuncts 2–5: the entity
constructors abort on a missing required attribute — `Type.from_xml`
without `type`, `NiObject.from_xml` and `Compound.from_xml` without `name`,
`BitFlags.from_xml` without `storage` — whatever the other attributes are. -/
theorem C9_malformed_input_aborts :
    (∀ s : String,
      (strHasChar s '(' || strHasChar s ')' || contains_any_operator s) = true →
      reSearch EXPR_RE_1 s.data = none →
      reSearch EXPR_RE_2 s.data = none →
      reSearch EXPR_RE_3 s.data = none →
      parse_expression s = none) ∧
    (∀ a : Attrib, a.type = none → Ty.from_xml a = none) ∧
    (∀ e : Entry, e.attrib.name = none → NiObject.from_xml e = none) ∧
    (∀ e : Entry, e.attrib.name = none → Compound.from_xml e = none) ∧
    (∀ e : Entry, e.attrib.storage = none → BitFlags.from_xml e = none) := by
  refine ⟨?_, ?_, ?_, ?_, ?_⟩
  · intro s hop h1 h2 h3
    unfold parse_expression parse_expression_aux
    rw [if_pos hop, h1, h2, h3]
    rfl
  · intro a h
    unfold Ty.from_xml
    rw [h]
    rfl
  · intro e h
    simp [NiObject.from_xml, h]
  · intro e h
    simp [Compound.from_xml, h]
  · intro e h
    cases hn : e.attrib.name with
    | none => simp [BitFlags.from_xml, hn]
    | some nm => simp [BitFlags.from_xml, hn, h]

/-- C9 witness: `"x+y"` contains an operator but no space, so none of the
three patterns matches and the parse aborts; a field entry with a `name` but
no `type` aborts `Type.from_xml`; an entry with a `name` but no `storage`
aborts `BitFlags.from_xml`. -/
theorem C9_malformed_input_aborts_witness :
    parse_expression "x+y" = none ∧
    Ty.from_xml { name := some "Extra Data" } = none ∧
    BitFlags.from_xml { attrib := { name := some "PixelLayout" } } = none :=
  ⟨C9_malformed_input_aborts.1 "x+y" (by decide) (by decide) (by decide) (by decide),
   C9_malformed_input_aborts.2.1 { name := some "Extra Data" } rfl,
   C9_malformed_input_aborts.2.2.2.2 { attrib := { name := some "PixelLayout" } } rfl⟩
